import Mathlib

/-!
Shallow embedding of the GestionSol bookkeeping application (src/App.py).

The application records sales ("ventas") and expenses ("egresos") into flat
CSV files, keeps small line-oriented config files (expense-type catalog,
provider catalog, provider-to-type map), and renders reports from the loaded
tables.  This file embeds the persistence and report logic as executable Lean
definitions and proves the specification claims about them.

Modelling conventions:
* A pandas cell is a `Celda`: null (NaN / NaT), a string, a rational number
  (floats are modelled exactly as rationals) or a calendar date.
* A CSV file on disk is modelled by a `FileView`: for each
  (encoding, separator) pair that `load` may try, the parse outcome
  (`none` = the read raised, `some t` = it produced the table `t`).
  A missing file is `Option.none` at the outer level (every read raises
  FileNotFoundError).
* Writing with `DataFrame.to_csv` (UTF-8, comma) produces a file whose
  first read attempt, latin-1 with comma, always succeeds: latin-1 decodes
  every byte string, but each non-ASCII character comes back as the latin-1
  reading of its UTF-8 bytes.  That byte-level behaviour is modelled by
  `latin1OfUtf8` applied to every string cell.
* `datetime.now().date()` is passed explicitly as a `today`/`asOf` parameter.
* `pd.to_datetime(..., errors='coerce')` and `pd.to_numeric(..., errors='coerce')`
  are modelled by `coerceFecha` / `coerceNum`; the accepted literal grammar is
  simplified to ISO dates and sign/digits/point/digits numerals, which covers
  everything this program writes.
-/

/-- Calendar date (as produced by `datetime.date`). -/
structure Fecha where
  year : Nat
  month : Nat
  day : Nat
deriving DecidableEq, Repr

/-- Strict ordering on dates, as Python compares `datetime.date` values. -/
def fechaLt (a b : Fecha) : Bool :=
  a.year < b.year ||
    (a.year == b.year &&
      (a.month < b.month || (a.month == b.month && a.day < b.day)))

/-- Non-strict ordering on dates. -/
def fechaLe (a b : Fecha) : Bool := !(fechaLt b a)

/-- One pandas cell: NaN/NaT, a string, a number, or a calendar date. -/
inductive Celda where
  | null : Celda
  | str : String → Celda
  | num : ℚ → Celda
  | date : Fecha → Celda
deriving DecidableEq, Repr

/-- Whether a cell is null (pandas `isna`). -/
def celdaIsNull : Celda → Bool
  | .null => true
  | _ => false

/-- Whether a cell holds a number. -/
def celdaIsNum : Celda → Bool
  | .num _ => true
  | _ => false

/-- Whether a cell holds a calendar date. -/
def celdaIsDate : Celda → Bool
  | .date _ => true
  | _ => false

/-- ASCII whitespace, the characters removed by Python `str.strip()`. -/
def isSpaceChar (c : Char) : Bool :=
  c == ' ' || c == '\t' || c == '\n' || c == '\r'

/-- Python `str.strip()`. -/
def pyStrip (s : String) : String :=
  ⟨((s.data.dropWhile isSpaceChar).reverse.dropWhile isSpaceChar).reverse⟩

/-- Split a character list at every occurrence of `c` (Python `str.split(c)`).
Always returns a non-empty list of fragments. -/
def splitOnChar (c : Char) : List Char → List (List Char)
  | [] => [[]]
  | x :: xs =>
      let r := splitOnChar c xs
      if x == c then [] :: r
      else
        match r with
        | [] => [[x]]
        | y :: ys => (x :: y) :: ys

/-- Rejoin fragments with the separator `c`; left inverse of `splitOnChar`. -/
def intercalateChar (c : Char) : List (List Char) → List Char
  | [] => []
  | [x] => x
  | x :: y :: ys => x ++ c :: intercalateChar c (y :: ys)

/-- Value of a decimal digit character. -/
def charDigit? (c : Char) : Option Nat :=
  if 48 ≤ c.toNat ∧ c.toNat ≤ 57 then some (c.toNat - 48) else none

/-- Read a non-empty all-digit character list as a natural number. -/
def digitsToNat? (l : List Char) : Option Nat :=
  if l.isEmpty then none
  else l.foldl (fun acc c => acc.bind fun a => (charDigit? c).map fun d => 10 * a + d) (some 0)

/-- Numeric reading of a string, modelling `pd.to_numeric` on string cells:
optional sign, digits, optionally a point and fractional digits. -/
def parseNumStr (s : String) : Option ℚ :=
  let t := (pyStrip s).data
  let sgnBody : Int × List Char :=
    match t with
    | c :: rest =>
        if c == '-' then (-1, rest) else if c == '+' then (1, rest) else (1, t)
    | [] => (1, [])
  let sgn := sgnBody.1
  match splitOnChar '.' sgnBody.2 with
  | [ip] => (digitsToNat? ip).map fun n => mkRat (sgn * (n : Int)) 1
  | [ip, fp] =>
      match digitsToNat? ip, digitsToNat? fp with
      | some a, some b =>
          some (mkRat (sgn * (((a * 10 ^ fp.length + b : Nat)) : Int)) (10 ^ fp.length))
      | _, _ => none
  | _ => none

/-- The column-wide `pd.to_numeric(col, errors='coerce')`: numbers pass
through, numeric strings are converted, anything else becomes null. -/
def coerceNum : Celda → Celda
  | .num q => .num q
  | .str s =>
      match parseNumStr s with
      | some q => .num q
      | none => .null
  | .date _ => .null
  | .null => .null

/-- ISO `YYYY-MM-DD` reading of a string, modelling the date literals this
program writes and `pd.to_datetime` reads back. -/
def parseFechaStr (s : String) : Option Fecha :=
  match splitOnChar '-' (pyStrip s).data with
  | [y, m, d] =>
      match digitsToNat? y, digitsToNat? m, digitsToNat? d with
      | some yy, some mm, some dd =>
          if 1 ≤ mm ∧ mm ≤ 12 ∧ 1 ≤ dd ∧ dd ≤ 31 then some ⟨yy, mm, dd⟩ else none
      | _, _, _ => none
  | _ => none

/-- The column-wide `pd.to_datetime(col, errors='coerce').dt.date`: dates pass
through, parsable strings are converted, anything else becomes null (NaT). -/
def coerceFecha : Celda → Celda
  | .date d => .date d
  | .str s =>
      match parseFechaStr s with
      | some d => .date d
      | none => .null
  | _ => .null

/-- UTF-8 byte sequence of one character. -/
def utf8Bytes (c : Char) : List Nat :=
  let n := c.toNat
  if n < 128 then [n]
  else if n < 2048 then [192 + n / 64, 128 + n % 64]
  else if n < 65536 then [224 + n / 4096, 128 + (n / 64) % 64, 128 + n % 64]
  else [240 + n / 262144, 128 + (n / 4096) % 64, 128 + (n / 64) % 64, 128 + n % 64]

/-- Reading the UTF-8 bytes of `s` as latin-1: every byte becomes one
character.  This is what `pd.read_csv(..., encoding='latin-1')` returns for a
field that `to_csv` wrote in UTF-8. -/
def latin1OfUtf8 (s : String) : String :=
  ⟨((s.data.map utf8Bytes).flatten).map Char.ofNat⟩

/-- Whether a string is pure ASCII (and hence survives the UTF-8 write /
latin-1 read round trip unchanged). -/
def asciiStr (s : String) : Bool := s.data.all fun c => c.toNat < 128

/-- Effect of the UTF-8 write / latin-1 read round trip on one cell: only
string cells are affected (dates and numbers serialize as ASCII text). -/
def mojibakeCelda : Celda → Celda
  | .str s => .str (latin1OfUtf8 s)
  | c => c

/-- Column set of the sales history file (`COLUMNAS_VENTAS_FINALES`). -/
def COLUMNAS_VENTAS_FINALES : List String :=
  [("Fecha"), ("Importe de venta"), ("Medio de cobro"), ("Facturado"), ("Socio")]

/-- Column set of the expenses history file (`COLUMNAS_EGRESOS_FINALES`). -/
def COLUMNAS_EGRESOS_FINALES : List String :=
  [("Fecha_Registro"), ("Tipo_Egreso"), ("Proveedor"), ("Importe"),
   ("Fecha_Vencimiento"), ("Facturado")]

/-- The payment-method abbreviation dictionary (`MAPEO_MEDIO_COBRO`). -/
def MAPEO_MEDIO_COBRO : List (String × String) :=
  [(("e"), ("Efectivo")), (("t"), ("Transferencia")),
   (("d"), ("Débito")), (("c"), ("Crédito"))]

/-- The partner abbreviation dictionary (`MAPEO_SOCIO`). -/
def MAPEO_SOCIO : List (String × String) :=
  [(("f"), ("Fernando")), (("n"), ("Ignacio (Nacho)"))]

/-- Default expense types (`DEFAULT_EGRESO_TYPES`). -/
def DEFAULT_EGRESO_TYPES : List String :=
  [("Mercadería"), ("Servicio"), ("Empleado"), ("Otros")]

/-- Default providers (`DEFAULT_PROVEEDORES`). -/
def DEFAULT_PROVEEDORES : List String := [("Proveedor Genérico")]

/-- Python `dict.get(k, dflt)` on a literal association list. -/
def dictGet (m : List (String × String)) (k dflt : String) : String :=
  match m.find? (fun p => p.1 == k) with
  | some p => p.2
  | none => dflt

/-- One row of the sales history (columns of `COLUMNAS_VENTAS_FINALES`). -/
structure VentaRow where
  fecha : Celda
  importe : Celda
  medio : Celda
  facturado : Celda
  socio : Celda
deriving DecidableEq, Repr

/-- One row of the expenses history (columns of `COLUMNAS_EGRESOS_FINALES`). -/
structure EgresoRow where
  fechaRegistro : Celda
  tipoEgreso : Celda
  proveedor : Celda
  importe : Celda
  fechaVencimiento : Celda
  facturado : Celda
deriving DecidableEq, Repr

/-- A parsed DataFrame: the header columns plus the grid of rows. -/
structure Tabla (Row : Type) where
  cols : List String
  rows : List Row
deriving DecidableEq, Repr

/-- Character encodings tried by the record-store load. -/
inductive CsvEncoding where
  | latin1
  | utf8
deriving DecidableEq, Repr

/-- Field separators tried by the record-store load. -/
inductive CsvSep where
  | comma
  | semi
deriving DecidableEq, Repr

/-- A CSV file on disk, seen through the outcome of each possible
`pd.read_csv` attempt: `none` means that attempt raised, `some t` means it
parsed to the table `t`. -/
structure FileView (Row : Type) where
  parse : CsvEncoding → CsvSep → Option (Tabla Row)

/-- The ordered `(encoding, sep)` attempt list of `load_ventas_data` /
`load_egresos_data`:
`[('latin-1', ','), ('utf-8', ';'), ('utf-8', ',')]`. -/
def CSV_ATTEMPTS : List (CsvEncoding × CsvSep) :=
  [(.latin1, .comma), (.utf8, .semi), (.utf8, .comma)]

/-- The `for encoding, sep in ...: try: df = pd.read_csv(...); break` loop:
first successful attempt wins, `None` if every attempt raised. -/
def tryAttempts {Row : Type} (fv : FileView Row) : List (CsvEncoding × CsvSep) → Option (Tabla Row)
  | [] => none
  | a :: rest =>
      match fv.parse a.1 a.2 with
      | some t => some t
      | none => tryAttempts fv rest

/-- Whether every cell of a sales row is null (`dropna(how='all')`). -/
def ventaAllNull (r : VentaRow) : Bool :=
  celdaIsNull r.fecha && celdaIsNull r.importe && celdaIsNull r.medio &&
    celdaIsNull r.facturado && celdaIsNull r.socio

/-- Whether every cell of an expense row is null (`dropna(how='all')`). -/
def egresoAllNull (r : EgresoRow) : Bool :=
  celdaIsNull r.fechaRegistro && celdaIsNull r.tipoEgreso && celdaIsNull r.proveedor &&
    celdaIsNull r.importe && celdaIsNull r.fechaVencimiento && celdaIsNull r.facturado

/-- Function `load_ventas_data`: try the attempt list; on success coerce the `Fecha`
column to dates, drop rows with null `Importe de venta`, drop all-null rows;
if the file is missing, every attempt raised, or a required column is absent
(the column access / `dropna(subset=...)` raises `KeyError`, caught by the
outer `except`), return the empty table with the canonical columns. -/
def loadVentasData (file : Option (FileView VentaRow)) : Tabla VentaRow :=
  let df? : Option (Tabla VentaRow) :=
    match file with
    | none => none
    | some fv => tryAttempts fv CSV_ATTEMPTS
  match df? with
  | some df =>
      if ("Fecha") ∈ df.cols ∧ ("Importe de venta") ∈ df.cols then
        let rows1 := df.rows.map fun r => { r with fecha := coerceFecha r.fecha }
        let rows2 := rows1.filter fun r => !(celdaIsNull r.importe)
        let rows3 := rows2.filter fun r => !(ventaAllNull r)
        { cols := df.cols, rows := rows3 }
      else { cols := COLUMNAS_VENTAS_FINALES, rows := [] }
  | none => { cols := COLUMNAS_VENTAS_FINALES, rows := [] }

/-- Function `load_egresos_data`: same shape as `load_ventas_data`, coercing both date
columns and dropping rows with null `Importe`. -/
def loadEgresosData (file : Option (FileView EgresoRow)) : Tabla EgresoRow :=
  let df? : Option (Tabla EgresoRow) :=
    match file with
    | none => none
    | some fv => tryAttempts fv CSV_ATTEMPTS
  match df? with
  | some df =>
      if ("Fecha_Vencimiento") ∈ df.cols ∧ ("Fecha_Registro") ∈ df.cols ∧
          ("Importe") ∈ df.cols then
        let rows1 := df.rows.map fun r =>
          { r with fechaVencimiento := coerceFecha r.fechaVencimiento,
                   fechaRegistro := coerceFecha r.fechaRegistro }
        let rows2 := rows1.filter fun r => !(celdaIsNull r.importe)
        let rows3 := rows2.filter fun r => !(egresoAllNull r)
        { cols := df.cols, rows := rows3 }
      else { cols := COLUMNAS_EGRESOS_FINALES, rows := [] }
  | none => { cols := COLUMNAS_EGRESOS_FINALES, rows := [] }

/-- Round-trip effect of one save/load cycle on a sales row: only string
cells change, by the UTF-8/latin-1 byte reinterpretation. -/
def mojibakeVentaRow (r : VentaRow) : VentaRow :=
  { fecha := mojibakeCelda r.fecha
    importe := mojibakeCelda r.importe
    medio := mojibakeCelda r.medio
    facturado := mojibakeCelda r.facturado
    socio := mojibakeCelda r.socio }

/-- Function `save_ventas_data(df)`: `to_csv(index=False, sep=',')` in UTF-8, header
`COLUMNAS_VENTAS_FINALES` (the frames this program saves carry the canonical
columns).  The resulting file's latin-1/comma read succeeds with every string
cell reinterpreted byte-wise; the utf-8/comma read recovers the rows exactly.
The utf-8/semicolon attempt is unreachable (the first attempt never raises on
a file this program wrote), so it is modelled as raising. -/
def savedVentasFile (rows : List VentaRow) : FileView VentaRow :=
  { parse := fun enc sep =>
      match enc, sep with
      | .latin1, .comma =>
          some { cols := COLUMNAS_VENTAS_FINALES, rows := rows.map mojibakeVentaRow }
      | .utf8, .comma => some { cols := COLUMNAS_VENTAS_FINALES, rows := rows }
      | _, _ => none }

/-- The new-sale row built by `add_new_sale` before coercion: abbreviations
are looked up with a literal `'Desconocido'` fallback, the invoice flag is
rendered as a two-valued label. -/
def mkVentaRow (fecha importe : Celda) (medio factura socio : String) : VentaRow :=
  { fecha := fecha
    importe := importe
    medio := .str (dictGet MAPEO_MEDIO_COBRO medio ("Desconocido"))
    facturado := .str (if factura == ("f") then ("Facturado") else ("No Facturado"))
    socio := .str (dictGet MAPEO_SOCIO socio ("Desconocido")) }

/-- Row-level `pd.to_numeric(df['Importe de venta'], errors='coerce')`. -/
def coerceImporteVenta (r : VentaRow) : VentaRow :=
  { r with importe := coerceNum r.importe }

/-- Function `add_new_sale`: load the history, append the constructed row, coerce the
amount column, drop rows whose amount became null; the result is both saved
(`save_ventas_data`) and returned. -/
def addNewSale (file : Option (FileView VentaRow)) (fecha importe : Celda)
    (medio factura socio : String) : List VentaRow :=
  let dfHistorico := loadVentasData file
  let dfActualizado := dfHistorico.rows ++ [mkVentaRow fecha importe medio factura socio]
  let coerced := dfActualizado.map coerceImporteVenta
  coerced.filter fun r => !(celdaIsNull r.importe)

/-- The new-expense row built by `add_new_egreso` (`Fecha_Registro` is
`datetime.now().date()`, passed here as `today`). -/
def mkEgresoRow (today : Fecha) (tipo proveedor : String) (importe vencimiento : Celda)
    (factura : String) : EgresoRow :=
  { fechaRegistro := .date today
    tipoEgreso := .str tipo
    proveedor := .str proveedor
    importe := importe
    fechaVencimiento := vencimiento
    facturado := .str (if factura == ("f") then ("Facturado") else ("No Facturado")) }

/-- Row-level `pd.to_numeric(df['Importe'], errors='coerce')`. -/
def coerceImporteEgreso (r : EgresoRow) : EgresoRow :=
  { r with importe := coerceNum r.importe }

/-- Function `add_new_egreso`: load the history, append the constructed row, coerce the
amount column, drop rows whose amount became null; the result is saved and
returned. -/
def addNewEgreso (file : Option (FileView EgresoRow)) (today : Fecha)
    (tipo proveedor : String) (importe vencimiento : Celda) (factura : String) : List EgresoRow :=
  let dfHistorico := loadEgresosData file
  let dfActualizado := dfHistorico.rows ++ [mkEgresoRow today tipo proveedor importe vencimiento factura]
  let coerced := dfActualizado.map coerceImporteEgreso
  coerced.filter fun r => !(celdaIsNull r.importe)

/-- Outcome of one submit of the sales form. -/
structure SubmitResult where
  file : Option (FileView VentaRow)
  errorMsg : Option String

/-- The `registro_venta_form` submit handler: if the amount is non-positive,
show the error and touch nothing; otherwise run `add_new_sale` (which loads,
appends and saves) and report success. -/
def registroVentaSubmit (file : Option (FileView VentaRow)) (fecha : Fecha) (importe : ℚ)
    (medio factura socio : String) : SubmitResult :=
  if importe ≤ 0 then
    { file := file, errorMsg := some ("El importe de la venta debe ser mayor a cero.") }
  else
    { file := some (savedVentasFile (addNewSale file (.date fecha) (.num importe) medio factura socio))
      errorMsg := none }

/-- State of a small text config file: present with its lines, absent, or
unreadable for some other I/O reason. -/
inductive ConfigFile where
  | absent
  | content (lines : List String)
  | ioError
deriving DecidableEq, Repr

/-- Lexicographic comparison of strings by code point, as Python `sorted`
compares `str` values. -/
def charListLe : List Char → List Char → Bool
  | [], _ => true
  | _ :: _, [] => false
  | a :: as, b :: bs =>
      if a.toNat < b.toNat then true
      else if b.toNat < a.toNat then false
      else charListLe as bs

/-- String comparison used by the config-store sort. -/
def strLeB (a b : String) : Bool := charListLe a.data b.data

/-- Insert into a list sorted by `le`. -/
def insBy {α : Type} (le : α → α → Bool) (x : α) : List α → List α
  | [] => [x]
  | y :: ys => if le x y then x :: y :: ys else y :: insBy le x ys

/-- Insertion sort by `le`. -/
def sortBy {α : Type} (le : α → α → Bool) : List α → List α
  | [] => []
  | x :: xs => insBy le x (sortBy le xs)

/-- Python `sorted(list(set(items)))`: the distinct items in code-point
order. -/
def uniqueSorted (items : List String) : List String :=
  sortBy strLeB items.dedup

/-- The items `load_config` extracts from the file's lines:
`[line.strip() for line in f if line.strip()]`. -/
def configLines (lines : List String) : List String :=
  (lines.map pyStrip).filter fun s => !(s == "")

/-- Function `save_config`: deduplicate, sort, write one item per line, overwriting
the file. -/
def saveConfigFile (items : List String) : ConfigFile :=
  .content (uniqueSorted items)

/-- Result of one `load_config` call: the file state afterwards, the returned
list, and whether `st.error` was shown. -/
structure ConfigLoadResult where
  file : ConfigFile
  items : List String
  errorShown : Bool
deriving DecidableEq, Repr

/-- Function `load_config(file_path, default_list)`: read the non-empty stripped
lines; if there are none, seed the file via `save_config` and return the
defaults; on FileNotFoundError likewise; on any other exception report an
error and return the defaults without writing. -/
def loadConfig : ConfigFile → List String → ConfigLoadResult
  | .content lines, defaults =>
      let items := configLines lines
      if items.isEmpty then
        { file := saveConfigFile defaults, items := defaults, errorShown := false }
      else
        { file := .content lines, items := items, errorShown := false }
  | .absent, defaults =>
      { file := saveConfigFile defaults, items := defaults, errorShown := false }
  | .ioError, defaults =>
      { file := .ioError, items := defaults, errorShown := true }

/-- The provider-to-type mapping, an insertion-ordered dict. -/
def MapaProvTipo : Type := List (String × List String)

/-- Python dict assignment `mapping[k] = v`: overwrite in place if the key
exists, else append at the end. -/
def updateAssoc (m : List (String × List String)) (k : String) (v : List String) :
    List (String × List String) :=
  if m.any (fun p => p.1 == k) then
    m.map fun p => if p.1 == k then (k, v) else p
  else m ++ [(k, v)]

/-- Whether a string contains a given character. -/
def hasChar (c : Char) (s : String) : Bool := s.data.any (fun x => x == c)

/-- Parse one stripped line of the map file:
`provider, types_csv = line.split('=', 1)` (a line with no `=` raises
`ValueError` and yields `none`), then
`[t.strip() for t in types_csv.split(',') if t.strip()]`. -/
def parseMapLine (line : String) : Option (String × List String) :=
  match splitOnChar '=' line.data with
  | [] => none
  | [_] => none
  | k :: rest =>
      let csv : List Char := intercalateChar '=' rest
      some (⟨k⟩,
        ((splitOnChar ',' csv).map (fun t => pyStrip ⟨t⟩)).filter fun t => !(t == ""))

/-- The line loop of `load_proveedor_tipo_map`: skip blank lines, skip lines
with no `=`, otherwise assign the parsed entry into the dict. -/
def loadMapFrom (acc : List (String × List String)) :
    List String → List (String × List String)
  | [] => acc
  | line :: rest =>
      let l := pyStrip line
      if l == "" then loadMapFrom acc rest
      else
        match parseMapLine l with
        | none => loadMapFrom acc rest
        | some kv => loadMapFrom (updateAssoc acc kv.1 kv.2) rest

/-- Function `load_proveedor_tipo_map`: parse the file's lines into a dict; a missing
file yields the empty dict. -/
def loadProveedorTipoMap (file : Option (List String)) : List (String × List String) :=
  match file with
  | none => []
  | some lines => loadMapFrom [] lines

/-- Serialization of one map entry: `f"{provider}={types_csv}"` with the
values joined by commas. -/
def joinCommaStr : List String → String
  | [] => ""
  | [x] => x
  | x :: y :: ys => x ++ (",") ++ joinCommaStr (y :: ys)

/-- One line of the saved map file. -/
def serializeMapEntry (k : String) (vs : List String) : String :=
  k ++ ("=") ++ joinCommaStr vs

/-- Function `save_proveedor_tipo_map`: write one line per entry whose value list is
non-empty (`if types_list:`), skipping empty-valued providers. -/
def saveProveedorTipoMap (m : List (String × List String)) : List String :=
  (m.filter fun p => !(p.2.isEmpty)).map fun p => serializeMapEntry p.1 p.2

/-- The `Vencido` flag of `generar_reporte_egresos`:
`df['Fecha_Vencimiento'] < datetime.now().date()` (a NaT due date compares
false). -/
def vencido (today : Fecha) (r : EgresoRow) : Bool :=
  match r.fechaVencimiento with
  | .date d => fechaLt d today
  | _ => false

/-- The pending rows `df[~df['Vencido']]`. -/
def dfPendientes (today : Fecha) (rows : List EgresoRow) : List EgresoRow :=
  rows.filter fun r => !(vencido today r)

/-- The overdue rows `df[df['Vencido']]`. -/
def dfVencidos (today : Fecha) (rows : List EgresoRow) : List EgresoRow :=
  rows.filter (vencido today)

/-- Due-date comparison used inside each group of the display sort; null due
dates sort last (`na_position='last'`). -/
def celdaFechaLeB : Celda → Celda → Bool
  | .date x, .date y => fechaLe x y
  | .date _, _ => true
  | _, .date _ => false
  | _, _ => true

/-- The key order of
`df.sort_values(by=['Vencido', 'Fecha_Vencimiento'], ascending=[False, True])`:
overdue first, then ascending due date. -/
def detalleLeB (today : Fecha) (a b : EgresoRow) : Bool :=
  let va := vencido today a
  let vb := vencido today b
  if va == vb then celdaFechaLeB a.fechaVencimiento b.fechaVencimiento else va

/-- The displayed order of the payment detail table. -/
def detalleOrder (today : Fecha) (rows : List EgresoRow) : List EgresoRow :=
  sortBy (detalleLeB today) rows

/-- The expense-type options offered by the Egresos form: if the selected
provider is a key of the provider-to-type map, exactly its mapped list;
otherwise the full catalog (`update_filter_and_reset_type` and the identical
per-render initialization). -/
def filteredEgresoTypes (m : List (String × List String)) (egresoTypes : List String)
    (provider : String) : List String :=
  match m.find? (fun p => p.1 == provider) with
  | some p => p.2
  | none => egresoTypes

/-- Modelled from the spec (claim C3, exactly as stated): the load tries the
ordered attempt list until one parses; on a missing file or total failure it
returns the empty canonical table; after any successful parse it coerces the
date column and drops null-amount rows and all-null rows. -/
def loadVentasSpec (file : Option (FileView VentaRow)) : Tabla VentaRow :=
  match file.bind fun fv => CSV_ATTEMPTS.findSome? fun a => fv.parse a.1 a.2 with
  | none => { cols := COLUMNAS_VENTAS_FINALES, rows := [] }
  | some t =>
      { cols := t.cols
        rows := (t.rows.map fun r => { r with fecha := coerceFecha r.fecha }).filter
          fun r => !(celdaIsNull r.importe || ventaAllNull r) }

/-- Spec-side description of the sales load amended by the missing-column
case: a parsed table lacking the date or amount column also yields the empty
canonical table (the column access raises, caught by the outer handler). -/
def loadVentasSpecAmended (file : Option (FileView VentaRow)) : Tabla VentaRow :=
  match file.bind fun fv => CSV_ATTEMPTS.findSome? fun a => fv.parse a.1 a.2 with
  | none => { cols := COLUMNAS_VENTAS_FINALES, rows := [] }
  | some t =>
      if ("Fecha") ∈ t.cols ∧ ("Importe de venta") ∈ t.cols then
        { cols := t.cols
          rows := (t.rows.map fun r => { r with fecha := coerceFecha r.fecha }).filter
            fun r => !(celdaIsNull r.importe || ventaAllNull r) }
      else { cols := COLUMNAS_VENTAS_FINALES, rows := [] }

/-- Spec-side description of the expenses load amended by the missing-column
case, with both date columns coerced. -/
def loadEgresosSpecAmended (file : Option (FileView EgresoRow)) : Tabla EgresoRow :=
  match file.bind fun fv => CSV_ATTEMPTS.findSome? fun a => fv.parse a.1 a.2 with
  | none => { cols := COLUMNAS_EGRESOS_FINALES, rows := [] }
  | some t =>
      if ("Fecha_Vencimiento") ∈ t.cols ∧ ("Fecha_Registro") ∈ t.cols ∧
          ("Importe") ∈ t.cols then
        { cols := t.cols
          rows := (t.rows.map fun r =>
              { r with fechaVencimiento := coerceFecha r.fechaVencimiento,
                       fechaRegistro := coerceFecha r.fechaRegistro }).filter
            fun r => !(celdaIsNull r.importe || egresoAllNull r) }
      else { cols := COLUMNAS_EGRESOS_FINALES, rows := [] }

theorem tryAttempts_eq_findSome {Row : Type} (fv : FileView Row) :
    ∀ l : List (CsvEncoding × CsvSep),
      tryAttempts fv l = l.findSome? fun a => fv.parse a.1 a.2 := by
  intro l
  induction l with
  | nil => rfl
  | cons a rest ih =>
      simp only [tryAttempts, List.findSome?]
      cases fv.parse a.1 a.2 <;> simp [ih]

theorem filter_filter_bool {α : Type} (p q : α → Bool) (l : List α) :
    (l.filter p).filter q = l.filter fun a => p a && q a := by
  induction l with
  | nil => rfl
  | cons x xs ih =>
      by_cases hp : p x = true <;> by_cases hq : q x = true <;>
        simp [List.filter_cons, hp, hq, ih]

/-- C1: the round-trip claim — load immediately after an append's save
returns exactly the previous rows plus the new row — fails on the code.
Appending the valid sale (2025-01-10, amount 150, method code d, invoiced,
partner code f) to an empty store builds the row with Medio = 'Débito', but
the reload parses the UTF-8 file with latin-1 (the first attempt, which never
raises), so the returned table holds the altered row with
Medio = 'DÃ©bito' instead of the stored one. -/
theorem c1_roundtrip_encoding_bug :
    (loadVentasData (some (savedVentasFile
        (addNewSale none (Celda.date ⟨2025, 1, 10⟩) (Celda.num 150) ("d") ("f") ("f"))))).rows
      ≠ [mkVentaRow (Celda.date ⟨2025, 1, 10⟩) (Celda.num 150) ("d") ("f") ("f")]
    ∧ (loadVentasData (some (savedVentasFile
        (addNewSale none (Celda.date ⟨2025, 1, 10⟩) (Celda.num 150) ("d") ("f") ("f"))))).rows
      = [{ mkVentaRow (Celda.date ⟨2025, 1, 10⟩) (Celda.num 150) ("d") ("f") ("f") with
            medio := Celda.str ("DÃ©bito") }]
    ∧ (mkVentaRow (Celda.date ⟨2025, 1, 10⟩) (Celda.num 150) ("d") ("f") ("f")).medio
      = Celda.str ("Débito") := by
  decide

/-- C2: a sales submit whose amount is non-positive is rejected by the form
handler before `add_new_sale` runs: the persisted file is left exactly as it
was and the specific validation message is shown. -/
theorem c2_nonpositive_rejected_before_write (file : Option (FileView VentaRow))
    (fecha : Fecha) (importe : ℚ) (medio factura socio : String)
    (h : importe ≤ 0) :
    (registroVentaSubmit file fecha importe medio factura socio).file = file
    ∧ (registroVentaSubmit file fecha importe medio factura socio).errorMsg
      = some ("El importe de la venta debe ser mayor a cero.") := by
  unfold registroVentaSubmit
  rw [if_pos h]
  exact ⟨rfl, rfl⟩

/-- Witness for C2 at amount 0 on a missing file. -/
theorem c2_witness :
    ((0 : ℚ) ≤ 0)
    ∧ ((registroVentaSubmit none ⟨2025, 1, 1⟩ 0 ("e") ("f") ("f")).file = none
      ∧ (registroVentaSubmit none ⟨2025, 1, 1⟩ 0 ("e") ("f") ("f")).errorMsg
        = some ("El importe de la venta debe ser mayor a cero.")) :=
  ⟨by decide, c2_nonpositive_rejected_before_write none ⟨2025, 1, 1⟩ 0 ("e") ("f") ("f") (by decide)⟩

/-- A sales file whose first read attempt (latin-1, comma) succeeds but with
the wrong separator: the whole header becomes a single packed column and each
line one packed field (placed in the amount slot of the nominal row grid).
This is what reading a semicolon-separated file with `sep=','` produces. -/
def cfC3 : FileView VentaRow :=
  { parse := fun enc sep =>
      match enc, sep with
      | .latin1, .comma =>
          some { cols := [("Fecha;Importe de venta;Medio de cobro;Facturado;Socio")],
                 rows := [⟨Celda.null,
                           Celda.str ("2025-01-01;100;Efectivo;Facturado;Fernando"),
                           Celda.null, Celda.null, Celda.null⟩] }
      | _, _ => none }

/-- C3 counterexample: on a file whose successful parse lacks the required
columns, the code returns the empty canonical table (the column access
raises `KeyError`, caught by the outer handler), not the coerced-and-filtered
parse result that the claim describes for every successful parse. -/
theorem c3_counterexample :
    loadVentasData (some cfC3) = { cols := COLUMNAS_VENTAS_FINALES, rows := [] }
    ∧ loadVentasSpec (some cfC3) ≠ loadVentasData (some cfC3)
    ∧ (loadVentasSpec (some cfC3)).rows ≠ [] := by
  decide

/-- C3 amended: the record-store loads behave exactly as the claim states,
with one more empty-table case — a parsed table missing the required
date/amount columns also yields the empty canonical table.  Stated as a
refinement: the source translation equals the spec-side description, for
sales and for expenses. -/
theorem c3_amended_load_refinement :
    (∀ fv : Option (FileView VentaRow), loadVentasData fv = loadVentasSpecAmended fv)
    ∧ (∀ fe : Option (FileView EgresoRow), loadEgresosData fe = loadEgresosSpecAmended fe) := by
  constructor
  · intro fv
    unfold loadVentasData loadVentasSpecAmended
    cases fv with
    | none => rfl
    | some f =>
        simp only [Option.some_bind', ← tryAttempts_eq_findSome]
        cases htry : tryAttempts f CSV_ATTEMPTS with
        | none => rfl
        | some t =>
            by_cases hc : ("Fecha") ∈ t.cols ∧ ("Importe de venta") ∈ t.cols
            · simp only [if_pos hc, filter_filter_bool]
              congr 1
              apply List.filter_congr
              intro r _
              simp [Bool.not_or]
            · simp only [if_neg hc]
  · intro fe
    unfold loadEgresosData loadEgresosSpecAmended
    cases fe with
    | none => rfl
    | some f =>
        simp only [Option.some_bind', ← tryAttempts_eq_findSome]
        cases htry : tryAttempts f CSV_ATTEMPTS with
        | none => rfl
        | some t =>
            by_cases hc : ("Fecha_Vencimiento") ∈ t.cols ∧ ("Fecha_Registro") ∈ t.cols ∧
                ("Importe") ∈ t.cols
            · simp only [if_pos hc, filter_filter_bool]
              congr 1
              apply List.filter_congr
              intro r _
              simp [Bool.not_or]
            · simp only [if_neg hc]

/-- Whether a cell is a strictly positive number. -/
def celdaPos : Celda → Bool
  | .num q => decide (0 < q)
  | _ => false

/-- A sales file holding a negative numeric amount and a non-numeric string
amount (a CSV column with mixed content keeps all its values as strings, and
`load` never applies `to_numeric`). -/
def cfC4 : FileView VentaRow :=
  { parse := fun enc sep =>
      match enc, sep with
      | .latin1, .comma =>
          some { cols := COLUMNAS_VENTAS_FINALES,
                 rows := [⟨Celda.date ⟨2025, 1, 1⟩, Celda.num (-5), Celda.str ("Efectivo"),
                           Celda.str ("Facturado"), Celda.str ("Fernando")⟩,
                          ⟨Celda.date ⟨2025, 1, 2⟩, Celda.str ("abc"), Celda.str ("Efectivo"),
                           Celda.str ("Facturado"), Celda.str ("Fernando")⟩] }
      | _, _ => none }

/-- C4 counterexample: a table produced by the record-store load can contain
a non-positive amount, and a row whose amount fails numeric coercion is kept
by the load, not dropped — only null amounts are dropped there. -/
theorem c4_counterexample :
    ((loadVentasData (some cfC4)).rows.all fun r => celdaPos r.importe) = false
    ∧ (⟨Celda.date ⟨2025, 1, 2⟩, Celda.str ("abc"), Celda.str ("Efectivo"),
        Celda.str ("Facturado"), Celda.str ("Fernando")⟩ : VentaRow)
      ∈ (loadVentasData (some cfC4)).rows
    ∧ coerceNum (Celda.str ("abc")) = Celda.null := by
  decide

theorem coerceNum_shape (c : Celda) :
    coerceNum c = Celda.null ∨ ∃ q, coerceNum c = Celda.num q := by
  cases c with
  | null => exact Or.inl rfl
  | date d => exact Or.inl rfl
  | num q => exact Or.inr ⟨q, rfl⟩
  | str s =>
      cases hp : parseNumStr s with
      | none => exact Or.inl (by simp [coerceNum, hp])
      | some q => exact Or.inr ⟨q, by simp [coerceNum, hp]⟩

theorem celdaIsNull_false_iff (c : Celda) : celdaIsNull c = false ↔ c ≠ Celda.null := by
  cases c <;> simp [celdaIsNull]

theorem mem_loadVentasData_importe {file : Option (FileView VentaRow)} {r : VentaRow}
    (hr : r ∈ (loadVentasData file).rows) : celdaIsNull r.importe = false := by
  unfold loadVentasData at hr
  cases file with
  | none => simp at hr
  | some f =>
      dsimp only at hr
      cases htry : tryAttempts f CSV_ATTEMPTS with
      | none => rw [htry] at hr; simp at hr
      | some t =>
          rw [htry] at hr
          dsimp only at hr
          by_cases hc : ("Fecha") ∈ t.cols ∧ ("Importe de venta") ∈ t.cols
          · rw [if_pos hc] at hr
            simp only [List.mem_filter] at hr
            have h2 := hr.1.2
            simpa using h2
          · rw [if_neg hc] at hr; simp at hr

theorem mem_loadEgresosData_importe {file : Option (FileView EgresoRow)} {r : EgresoRow}
    (hr : r ∈ (loadEgresosData file).rows) : celdaIsNull r.importe = false := by
  unfold loadEgresosData at hr
  cases file with
  | none => simp at hr
  | some f =>
      dsimp only at hr
      cases htry : tryAttempts f CSV_ATTEMPTS with
      | none => rw [htry] at hr; simp at hr
      | some t =>
          rw [htry] at hr
          dsimp only at hr
          by_cases hc : ("Fecha_Vencimiento") ∈ t.cols ∧ ("Fecha_Registro") ∈ t.cols ∧
              ("Importe") ∈ t.cols
          · rw [if_pos hc] at hr
            simp only [List.mem_filter] at hr
            have h2 := hr.1.2
            simpa using h2
          · rw [if_neg hc] at hr; simp at hr

/-- C4 amended: no positivity invariant is enforced anywhere in the store.
What the code guarantees is: every row returned by an append has a numeric
(non-null) amount — rows whose amount fails numeric coercion, including the
just-added one, are silently dropped by the append — and every row returned
by a load has a non-null amount (string amounts survive a load uncoerced). -/
theorem c4_amended_amounts_numeric :
    (∀ (file : Option (FileView VentaRow)) (fecha importe : Celda) (medio factura socio : String),
      ∀ r ∈ addNewSale file fecha importe medio factura socio, ∃ q, r.importe = Celda.num q)
    ∧ (∀ file : Option (FileView VentaRow), ∀ r ∈ (loadVentasData file).rows,
        r.importe ≠ Celda.null)
    ∧ (∀ (file : Option (FileView EgresoRow)) (today : Fecha) (tipo proveedor : String)
        (importe vencimiento : Celda) (factura : String),
      ∀ r ∈ addNewEgreso file today tipo proveedor importe vencimiento factura,
        ∃ q, r.importe = Celda.num q)
    ∧ (∀ file : Option (FileView EgresoRow), ∀ r ∈ (loadEgresosData file).rows,
        r.importe ≠ Celda.null) := by
  refine ⟨?_, ?_, ?_, ?_⟩
  · intro file fecha importe medio factura socio r hr
    unfold addNewSale at hr
    rcases List.mem_filter.1 hr with ⟨hmem, hkeep⟩
    rcases List.mem_map.1 hmem with ⟨r0, _, rfl⟩
    rcases coerceNum_shape r0.importe with hnull | ⟨q, hq⟩
    · exfalso
      simp [coerceImporteVenta, hnull, celdaIsNull] at hkeep
    · exact ⟨q, by simp [coerceImporteVenta, hq]⟩
  · intro file r hr
    exact (celdaIsNull_false_iff r.importe).1 (mem_loadVentasData_importe hr)
  · intro file today tipo proveedor importe vencimiento factura r hr
    unfold addNewEgreso at hr
    rcases List.mem_filter.1 hr with ⟨hmem, hkeep⟩
    rcases List.mem_map.1 hmem with ⟨r0, _, rfl⟩
    rcases coerceNum_shape r0.importe with hnull | ⟨q, hq⟩
    · exfalso
      simp [coerceImporteEgreso, hnull, celdaIsNull] at hkeep
    · exact ⟨q, by simp [coerceImporteEgreso, hq]⟩
  · intro file r hr
    exact (celdaIsNull_false_iff r.importe).1 (mem_loadEgresosData_importe hr)

theorem dictGet_eq_default (m : List (String × String)) (k dflt : String)
    (h : ∀ p ∈ m, p.1 ≠ k) : dictGet m k dflt = dflt := by
  unfold dictGet
  have hnone : (m.find? fun p => p.1 == k) = none := by
    rw [List.find?_eq_none]
    intro p hp
    simpa using h p hp
  rw [hnone]

theorem getLast?_append_singleton {α : Type} (l : List α) (a : α) :
    (l ++ [a]).getLast? = some a :=
  List.getLast?_concat _

/-- C5: a sale appended with a payment-method code or partner code outside
the fixed enumerations still succeeds — unconditionally, the new row is the
last row of the table that `add_new_sale` saves and returns — and whichever
code is unknown is stored as the literal placeholder string 'Desconocido' in
its field, independently of the other code. -/
theorem c5_unknown_codes_get_placeholder (file : Option (FileView VentaRow)) (d : Fecha)
    (q : ℚ) (medio factura socio : String) :
    (medio ∉ [("e"), ("t"), ("d"), ("c")] →
      (mkVentaRow (Celda.date d) (Celda.num q) medio factura socio).medio
        = Celda.str ("Desconocido"))
    ∧ (socio ∉ [("f"), ("n")] →
      (mkVentaRow (Celda.date d) (Celda.num q) medio factura socio).socio
        = Celda.str ("Desconocido"))
    ∧ (addNewSale file (Celda.date d) (Celda.num q) medio factura socio).getLast?
      = some (mkVentaRow (Celda.date d) (Celda.num q) medio factura socio) := by
  refine ⟨?_, ?_, ?_⟩
  · intro hm
    have hmedio : dictGet MAPEO_MEDIO_COBRO medio ("Desconocido") = ("Desconocido") := by
      apply dictGet_eq_default
      intro p hp
      simp only [MAPEO_MEDIO_COBRO, List.mem_cons, List.not_mem_nil, or_false] at hp
      rcases hp with rfl | rfl | rfl | rfl <;>
        · intro he
          exact hm (by simp [← he])
    simp [mkVentaRow, hmedio]
  · intro hs
    have hsocio : dictGet MAPEO_SOCIO socio ("Desconocido") = ("Desconocido") := by
      apply dictGet_eq_default
      intro p hp
      simp only [ MAPEO_SOCIO, List.mem_cons, List.not_mem_nil, or_false] at hp
      rcases hp with rfl | rfl <;>
        · intro he
          exact hs (by simp [← he])
    simp [mkVentaRow, hsocio]
  · unfold addNewSale
    dsimp only
    rw [List.map_append, List.filter_append]
    have hnew : coerceImporteVenta (mkVentaRow (Celda.date d) (Celda.num q) medio factura socio)
        = mkVentaRow (Celda.date d) (Celda.num q) medio factura socio := rfl
    simp only [List.map_cons, List.map_nil, hnew]
    rw [List.filter_cons]
    simp only [celdaIsNull, mkVentaRow, Bool.not_false, if_pos]
    exact getLast?_append_singleton _ _

/-- Witness for C5 at the two mixed cases: unknown method 'x' with the valid
partner 'f', and the valid method 'e' with unknown partner 'z'. -/
theorem c5_witness :
    ((mkVentaRow (Celda.date ⟨2025, 1, 1⟩) (Celda.num 10) ("x") ("f") ("f")).medio
        = Celda.str ("Desconocido")
      ∧ (addNewSale none (Celda.date ⟨2025, 1, 1⟩) (Celda.num 10) ("x") ("f") ("f")).getLast?
        = some (mkVentaRow (Celda.date ⟨2025, 1, 1⟩) (Celda.num 10) ("x") ("f") ("f")))
    ∧ ((mkVentaRow (Celda.date ⟨2025, 1, 2⟩) (Celda.num 20) ("e") ("f") ("z")).socio
        = Celda.str ("Desconocido")
      ∧ (addNewSale none (Celda.date ⟨2025, 1, 2⟩) (Celda.num 20) ("e") ("f") ("z")).getLast?
        = some (mkVentaRow (Celda.date ⟨2025, 1, 2⟩) (Celda.num 20) ("e") ("f") ("z"))) :=
  ⟨⟨(c5_unknown_codes_get_placeholder none ⟨2025, 1, 1⟩ 10 ("x") ("f") ("f")).1 (by decide),
    (c5_unknown_codes_get_placeholder none ⟨2025, 1, 1⟩ 10 ("x") ("f") ("f")).2.2⟩,
   ⟨(c5_unknown_codes_get_placeholder none ⟨2025, 1, 2⟩ 20 ("e") ("f") ("z")).2.1 (by decide),
    (c5_unknown_codes_get_placeholder none ⟨2025, 1, 2⟩ 20 ("e") ("f") ("z")).2.2⟩⟩

/-- C6 counterexample: with the default list `[' a']` (an item that is not
equal to its own trimmed form), the first load on a missing file seeds the
file with the sorted deduplicated defaults, but the subsequent load strips
the line and returns `['a']`, not that sorted deduplicated list. -/
theorem c6_counterexample :
    (loadConfig ((loadConfig .absent [(" a")]).file) [(" a")]).items = [("a")]
    ∧ uniqueSorted [(" a")] = [(" a")]
    ∧ ([("a")] : List String) ≠ [(" a")] := by
  decide

theorem mem_insBy {α : Type} (le : α → α → Bool) (a x : α) :
    ∀ l : List α, x ∈ insBy le a l ↔ x = a ∨ x ∈ l := by
  intro l
  induction l with
  | nil => simp [insBy]
  | cons y ys ih =>
      by_cases h : le a y = true
      · simp [insBy, h]
      · simp only [insBy, h, if_false, Bool.false_eq_true, List.mem_cons, ih]
        tauto

theorem mem_sortBy {α : Type} (le : α → α → Bool) (x : α) :
    ∀ l : List α, x ∈ sortBy le l ↔ x ∈ l := by
  intro l
  induction l with
  | nil => simp [sortBy]
  | cons y ys ih => simp [sortBy, mem_insBy, ih]

theorem insBy_ne_nil {α : Type} (le : α → α → Bool) (a : α) (l : List α) :
    insBy le a l ≠ [] := by
  cases l with
  | nil => simp [insBy]
  | cons y ys =>
      by_cases h : le a y = true <;> simp [insBy, h]

theorem sortBy_eq_nil {α : Type} (le : α → α → Bool) (l : List α) :
    sortBy le l = [] ↔ l = [] := by
  cases l with
  | nil => simp [sortBy]
  | cons y ys => simp [sortBy, insBy_ne_nil]

theorem configLines_of_clean (l : List String)
    (h : ∀ s ∈ l, pyStrip s = s ∧ s ≠ "") : configLines l = l := by
  induction l with
  | nil => rfl
  | cons s t ih =>
      have hs := h s (by simp)
      have ht : ∀ x ∈ t, pyStrip x = x ∧ x ≠ "" := fun x hx => h x (by simp [hx])
      unfold configLines at ih ⊢
      simp only [List.map_cons, List.filter_cons, hs.1]
      have : (s == "") = false := by
        simpa using hs.2
      simp [this, ih ht]

/-- C6 amended: for default items that are non-empty and equal to their own
trimmed form (as the application's literal default lists are), the config
load behaves exactly as claimed: it returns the non-empty stripped lines; a
missing file or one with zero items is seeded with the sorted deduplicated
defaults and the defaults are returned; a load of the seeded file returns
that sorted deduplicated list; any other I/O failure reports an error and
returns the defaults without writing. -/
theorem c6_amended_config_load (defaults lines : List String)
    (hclean : (defaults.all fun s => pyStrip s == s && !(s == "")) = true) :
    (loadConfig .absent defaults
      = ⟨.content (uniqueSorted defaults), defaults, false⟩)
    ∧ (configLines lines = [] →
        loadConfig (.content lines) defaults
          = ⟨.content (uniqueSorted defaults), defaults, false⟩)
    ∧ (configLines lines ≠ [] →
        loadConfig (.content lines) defaults = ⟨.content lines, configLines lines, false⟩)
    ∧ ((loadConfig (.content (uniqueSorted defaults)) defaults).items = uniqueSorted defaults)
    ∧ (loadConfig .ioError defaults = ⟨.ioError, defaults, true⟩) := by
  have hclean' : ∀ s ∈ defaults, pyStrip s = s ∧ s ≠ "" := by
    intro s hs
    have := (List.all_eq_true.1 hclean) s hs
    constructor
    · have h1 := (Bool.and_elim_left this)
      simpa using h1
    · have h2 := (Bool.and_elim_right this)
      simpa using h2
  have hcleanU : ∀ s ∈ uniqueSorted defaults, pyStrip s = s ∧ s ≠ "" := by
    intro s hs
    apply hclean'
    have hs' := (mem_sortBy strLeB s (defaults.dedup)).1 hs
    exact List.mem_dedup.1 hs'
  have hU : configLines (uniqueSorted defaults) = uniqueSorted defaults :=
    configLines_of_clean _ hcleanU
  refine ⟨rfl, ?_, ?_, ?_, rfl⟩
  · intro h
    unfold loadConfig
    dsimp only
    rw [h]
    rfl
  · intro h
    unfold loadConfig
    dsimp only
    have : (configLines lines).isEmpty = false := by
      cases hcl : configLines lines with
      | nil => exact absurd hcl h
      | cons a t => rfl
    rw [if_neg (by simp [this])]
  · by_cases hnil : uniqueSorted defaults = []
    · have hdnil : defaults = [] := by
        have := (sortBy_eq_nil strLeB defaults.dedup).1 hnil
        exact (List.dedup_eq_nil _).1 this
      subst hdnil
      decide
    · unfold loadConfig
      dsimp only
      rw [hU]
      have : (uniqueSorted defaults).isEmpty = false := by
        cases hcl : uniqueSorted defaults with
        | nil => exact absurd hcl hnil
        | cons a t => rfl
      rw [if_neg (by simp [this])]

/-- Witness for C6 at the application's literal expense-type defaults. -/
theorem c6_witness :
    ((DEFAULT_EGRESO_TYPES.all fun s => pyStrip s == s && !(s == "")) = true)
    ∧ ((loadConfig .absent DEFAULT_EGRESO_TYPES
        = ⟨.content (uniqueSorted DEFAULT_EGRESO_TYPES), DEFAULT_EGRESO_TYPES, false⟩)
      ∧ (configLines [("  "), ("")] = [] →
          loadConfig (.content [("  "), ("")]) DEFAULT_EGRESO_TYPES
            = ⟨.content (uniqueSorted DEFAULT_EGRESO_TYPES), DEFAULT_EGRESO_TYPES, false⟩)
      ∧ (configLines [("  "), ("")] ≠ [] →
          loadConfig (.content [("  "), ("")]) DEFAULT_EGRESO_TYPES
            = ⟨.content [("  "), ("")], configLines [("  "), ("")], false⟩)
      ∧ ((loadConfig (.content (uniqueSorted DEFAULT_EGRESO_TYPES)) DEFAULT_EGRESO_TYPES).items
          = uniqueSorted DEFAULT_EGRESO_TYPES)
      ∧ (loadConfig .ioError DEFAULT_EGRESO_TYPES
          = ⟨.ioError, DEFAULT_EGRESO_TYPES, true⟩)) :=
  ⟨by decide, c6_amended_config_load DEFAULT_EGRESO_TYPES [("  "), ("")] (by decide)⟩

theorem splitOnChar_ne_nil (c : Char) (l : List Char) : splitOnChar c l ≠ [] := by
  cases l with
  | nil => simp [splitOnChar]
  | cons x xs =>
      unfold splitOnChar
      dsimp only
      by_cases hx : (x == c) = true
      · simp [hx]
      · cases h : splitOnChar c xs <;> simp [hx, h]

theorem splitOnChar_of_no_sep (c : Char) :
    ∀ l : List Char, (∀ x ∈ l, (x == c) = false) → splitOnChar c l = [l] := by
  intro l
  induction l with
  | nil => intro _; rfl
  | cons x xs ih =>
      intro h
      have hx := h x (by simp)
      have ihx := ih fun y hy => h y (by simp [hy])
      simp [splitOnChar, hx, ihx]

theorem splitOnChar_append_sep (c : Char) :
    ∀ k rest : List Char, (∀ x ∈ k, (x == c) = false) →
      splitOnChar c (k ++ c :: rest) = k :: splitOnChar c rest := by
  intro k rest
  induction k with
  | nil =>
      intro _
      simp [splitOnChar]
  | cons x xs ih =>
      intro h
      have hx := h x (by simp)
      have ihx := ih fun y hy => h y (by simp [hy])
      rw [List.cons_append]
      simp [splitOnChar, hx, ihx]

theorem intercalateChar_cons_cons (c x : Char) (y : List Char) (ys : List (List Char)) :
    intercalateChar c ((x :: y) :: ys) = x :: intercalateChar c (y :: ys) := by
  cases ys <;> simp [intercalateChar]

theorem intercalateChar_splitOnChar (c : Char) :
    ∀ l : List Char, intercalateChar c (splitOnChar c l) = l := by
  intro l
  induction l with
  | nil => rfl
  | cons x xs ih =>
      by_cases hx : (x == c) = true
      · have hxc : x = c := by simpa using hx
        cases h : splitOnChar c xs with
        | nil => exact absurd h (splitOnChar_ne_nil c xs)
        | cons y ys =>
            have hstep : splitOnChar c (x :: xs) = [] :: y :: ys := by
              simp [splitOnChar, hx, h]
            rw [hstep]
            have h2 : intercalateChar c ([] :: y :: ys) = c :: intercalateChar c (y :: ys) := by
              simp [intercalateChar]
            rw [h2, ← h, ih, hxc]
      · cases h : splitOnChar c xs with
        | nil => exact absurd h (splitOnChar_ne_nil c xs)
        | cons y ys =>
            have hstep : splitOnChar c (x :: xs) = (x :: y) :: ys := by
              simp [splitOnChar, hx, h]
            rw [hstep, intercalateChar_cons_cons, ← h, ih]

/-- The value list parsed from the comma-separated right-hand side of a map
line: split on commas, strip each piece, keep the non-empty ones. -/
def csvValues (csv : String) : List String :=
  ((splitOnChar ',' csv.data).map fun t => pyStrip ⟨t⟩).filter fun t => !(t == "")

theorem parseMapLine_no_sep (s : String) (h : hasChar '=' s = false) :
    parseMapLine s = none := by
  unfold parseMapLine
  have hall : ∀ x ∈ s.data, (x == '=') = false := by
    intro x hx
    have := List.any_eq_false.1 h
    simpa using this x hx
  rw [splitOnChar_of_no_sep '=' s.data hall]

theorem parseMapLine_wellFormed (k csv : String) (hk : hasChar '=' k = false) :
    parseMapLine (k ++ ("=") ++ csv) = some (k, csvValues csv) := by
  have hdata : (k ++ ("=") ++ csv).data = k.data ++ '=' :: csv.data := by
    simp [String.data_append]
  have hall : ∀ x ∈ k.data, (x == '=') = false := by
    intro x hx
    have := List.any_eq_false.1 hk
    simpa using this x hx
  unfold parseMapLine
  rw [hdata, splitOnChar_append_sep '=' k.data csv.data hall]
  cases h : splitOnChar '=' csv.data with
  | nil => exact absurd h (splitOnChar_ne_nil '=' csv.data)
  | cons y ys =>
      dsimp only
      have hjoin : intercalateChar '=' (y :: ys) = csv.data := by
        rw [← h, intercalateChar_splitOnChar]
      rw [hjoin]
      rfl

/-- C7: map-file semantics.  A stripped line with no '=' is skipped by the
load loop; a line `k=v1,v2,...` (key without '=') parses to the entry mapping
`k` to the stripped non-empty comma-separated values, and the load loop
assigns that entry into the dict; the save writes exactly one serialized line
per entry with a non-empty value list, so a provider whose list became empty
is omitted from the saved file. -/
theorem c7_map_line_semantics (acc : List (String × List String)) (line : String)
    (rest : List String) (m : List (String × List String)) (k csv : String) :
    (hasChar '=' (pyStrip line) = false →
      loadMapFrom acc (line :: rest) = loadMapFrom acc rest)
    ∧ (hasChar '=' k = false →
        parseMapLine (k ++ ("=") ++ csv) = some (k, csvValues csv))
    ∧ (hasChar '=' k = false → pyStrip (k ++ ("=") ++ csv) = k ++ ("=") ++ csv →
        loadMapFrom acc ((k ++ ("=") ++ csv) :: rest)
          = loadMapFrom (updateAssoc acc k (csvValues csv)) rest)
    ∧ (∀ l ∈ saveProveedorTipoMap m, ∃ p ∈ m, p.2 ≠ [] ∧ l = serializeMapEntry p.1 p.2)
    ∧ (∀ p ∈ m, p.2 ≠ [] → serializeMapEntry p.1 p.2 ∈ saveProveedorTipoMap m) := by
  refine ⟨?_, ?_, ?_, ?_, ?_⟩
  · intro h
    conv_lhs => rw [loadMapFrom]
    by_cases hb : (pyStrip line == "") = true
    · rw [if_pos hb]
    · rw [if_neg hb, parseMapLine_no_sep _ h]
  · intro hk
    exact parseMapLine_wellFormed k csv hk
  · intro hk hstrip
    conv_lhs => rw [loadMapFrom]
    rw [hstrip]
    have hne : ((k ++ ("=") ++ csv) == "") = false := by
      simp only [beq_eq_false_iff_ne, ne_eq]
      intro hcontr
      have hd : (k ++ ("=") ++ csv).data = ([] : List Char) := by rw [hcontr]
      rw [show (k ++ ("=") ++ csv).data = k.data ++ '=' :: csv.data from by
        simp [String.data_append]] at hd
      simp at hd
    rw [if_neg (by simp [hne])]
    rw [parseMapLine_wellFormed k csv hk]
  · intro l hl
    unfold saveProveedorTipoMap at hl
    rcases List.mem_map.1 hl with ⟨p, hp, rfl⟩
    rcases List.mem_filter.1 hp with ⟨hpm, hne⟩
    refine ⟨p, hpm, ?_, rfl⟩
    intro hcontr
    rw [hcontr] at hne
    simp at hne
  · intro p hp hne
    unfold saveProveedorTipoMap
    apply List.mem_map.2
    refine ⟨p, ?_, rfl⟩
    apply List.mem_filter.2
    refine ⟨hp, ?_⟩
    simp [List.isEmpty_iff, hne]

/-- Witness for C7: a line without '=' is skipped, and a well-formed line
parses to its entry. -/
theorem c7_witness :
    (loadMapFrom [] [("sinigual")] = loadMapFrom [] []
    ∧ parseMapLine (("EPEC") ++ ("=") ++ ("Servicio, Luz"))
        = some (("EPEC"), csvValues ("Servicio, Luz"))) :=
  ⟨(c7_map_line_semantics [] ("sinigual") [] [] ("EPEC") ("Servicio, Luz")).1 (by decide),
   (c7_map_line_semantics [] ("sinigual") [] [] ("EPEC") ("Servicio, Luz")).2.1 (by decide)⟩

theorem perm_insBy {α : Type} (le : α → α → Bool) (x : α) :
    ∀ l : List α, (insBy le x l).Perm (x :: l) := by
  intro l
  induction l with
  | nil => exact List.Perm.refl _
  | cons y ys ih =>
      by_cases h : le x y = true
      · simp [insBy, h]
      · simp only [insBy, h, if_false, Bool.false_eq_true]
        exact (ih.cons y).trans (List.Perm.swap x y ys)

theorem perm_sortBy {α : Type} (le : α → α → Bool) :
    ∀ l : List α, (sortBy le l).Perm l := by
  intro l
  induction l with
  | nil => exact List.Perm.refl _
  | cons x xs ih =>
      exact (perm_insBy le x (sortBy le xs)).trans (ih.cons x)

theorem pairwise_insBy {α : Type} (le : α → α → Bool)
    (htot : ∀ a b, le a b = true ∨ le b a = true)
    (htrans : ∀ a b c, le a b = true → le b c = true → le a c = true) (x : α) :
    ∀ l : List α, (l.Pairwise fun a b => le a b = true) →
      (insBy le x l).Pairwise fun a b => le a b = true := by
  intro l
  induction l with
  | nil => intro _; simp [insBy]
  | cons y ys ih =>
      intro h
      rcases List.pairwise_cons.1 h with ⟨hy, hys⟩
      by_cases hle : le x y = true
      · simp only [insBy, hle, if_true]
        apply List.pairwise_cons.2
        refine ⟨?_, h⟩
        intro z hz
        rcases List.mem_cons.1 hz with rfl | hz'
        · exact hle
        · exact htrans x y z hle (hy z hz')
      · simp only [insBy, hle, if_false, Bool.false_eq_true]
        apply List.pairwise_cons.2
        constructor
        · intro z hz
          rcases (mem_insBy le x z ys).1 hz with rfl | hz'
          · rcases htot z y with h1 | h1
            · exact absurd h1 hle
            · exact h1
          · exact hy z hz'
        · exact ih hys

theorem pairwise_sortBy {α : Type} (le : α → α → Bool)
    (htot : ∀ a b, le a b = true ∨ le b a = true)
    (htrans : ∀ a b c, le a b = true → le b c = true → le a c = true) :
    ∀ l : List α, (sortBy le l).Pairwise fun a b => le a b = true := by
  intro l
  induction l with
  | nil => simp [sortBy]
  | cons x xs ih => exact pairwise_insBy le htot htrans x (sortBy le xs) ih

theorem fechaLt_iff (a b : Fecha) : fechaLt a b = true ↔
    (a.year < b.year ∨ (a.year = b.year ∧
      (a.month < b.month ∨ (a.month = b.month ∧ a.day < b.day)))) := by
  unfold fechaLt
  simp [Bool.or_eq_true, Bool.and_eq_true, beq_iff_eq, decide_eq_true_eq]

theorem fechaLt_asymm (a b : Fecha) (h : fechaLt a b = true) : fechaLt b a = false := by
  have h1 := (fechaLt_iff a b).1 h
  cases hb : fechaLt b a
  · rfl
  · exfalso
    have h2 := (fechaLt_iff b a).1 hb
    omega

theorem fechaLe_total (a b : Fecha) : fechaLe a b = true ∨ fechaLe b a = true := by
  unfold fechaLe
  cases h : fechaLt b a
  · left; rfl
  · right
    rw [fechaLt_asymm b a h]
    rfl

theorem fechaLt_eq_false_iff (a b : Fecha) : fechaLt a b = false ↔
    ¬ (a.year < b.year ∨ (a.year = b.year ∧
      (a.month < b.month ∨ (a.month = b.month ∧ a.day < b.day)))) := by
  constructor
  · intro h hp
    rw [(fechaLt_iff a b).2 hp] at h
    cases h
  · intro hp
    cases hb : fechaLt a b
    · rfl
    · exact absurd ((fechaLt_iff a b).1 hb) hp

theorem fechaLe_trans (a b c : Fecha) (h1 : fechaLe a b = true) (h2 : fechaLe b c = true) :
    fechaLe a c = true := by
  unfold fechaLe at h1 h2 ⊢
  rw [Bool.not_eq_true'] at h1 h2 ⊢
  rw [fechaLt_eq_false_iff] at h1 h2 ⊢
  omega

theorem celdaFechaLeB_total (a b : Celda) :
    celdaFechaLeB a b = true ∨ celdaFechaLeB b a = true := by
  cases a <;> cases b <;> simp [celdaFechaLeB]
  all_goals exact fechaLe_total _ _

theorem celdaFechaLeB_trans (a b c : Celda) (h1 : celdaFechaLeB a b = true)
    (h2 : celdaFechaLeB b c = true) : celdaFechaLeB a c = true := by
  cases a <;> cases b <;> cases c <;> simp_all [celdaFechaLeB]
  all_goals exact fechaLe_trans _ _ _ h1 h2

theorem detalleLeB_total (today : Fecha) (a b : EgresoRow) :
    detalleLeB today a b = true ∨ detalleLeB today b a = true := by
  unfold detalleLeB
  cases hva : vencido today a <;> cases hvb : vencido today b <;> simp
  · exact celdaFechaLeB_total _ _
  · exact celdaFechaLeB_total _ _

theorem detalleLeB_trans (today : Fecha) (a b c : EgresoRow)
    (h1 : detalleLeB today a b = true) (h2 : detalleLeB today b c = true) :
    detalleLeB today a c = true := by
  unfold detalleLeB at h1 h2 ⊢
  cases hva : vencido today a <;> cases hvb : vencido today b <;>
    cases hvc : vencido today c <;> simp_all
  · exact celdaFechaLeB_trans _ _ _ h1 h2
  · exact celdaFechaLeB_trans _ _ _ h1 h2

theorem vencido_date (today d : Fecha) (r : EgresoRow)
    (hc : r.fechaVencimiento = Celda.date d) : vencido today r = fechaLt d today := by
  unfold vencido
  rw [hc]

/-- C8: with an explicit evaluation date (the code always uses
`datetime.now().date()`), and for tables whose due dates are calendar dates,
the report places a row among the pending ones iff its due date is ≥ the
evaluation date and among the overdue ones iff its due date is < the
evaluation date; the displayed detail order is a permutation of the table in
which every overdue row precedes every pending row and due dates ascend
inside each group. -/
theorem c8_overdue_partition (today : Fecha) (rows : List EgresoRow)
    (h : (rows.all fun r => celdaIsDate r.fechaVencimiento) = true) :
    (∀ r ∈ rows, (r ∈ dfPendientes today rows ↔
        ∃ d, r.fechaVencimiento = Celda.date d ∧ fechaLe today d = true))
    ∧ (∀ r ∈ rows, (r ∈ dfVencidos today rows ↔
        ∃ d, r.fechaVencimiento = Celda.date d ∧ fechaLt d today = true))
    ∧ (detalleOrder today rows).Perm rows
    ∧ (detalleOrder today rows).Pairwise fun a b =>
        (vencido today b = true → vencido today a = true)
        ∧ (vencido today a = vencido today b →
            celdaFechaLeB a.fechaVencimiento b.fechaVencimiento = true) := by
  refine ⟨?_, ?_, perm_sortBy _ _, ?_⟩
  · intro r hr
    have hdate := (List.all_eq_true.1 h) r hr
    cases hd : r.fechaVencimiento with
    | null => rw [hd] at hdate; simp [celdaIsDate] at hdate
    | str s => rw [hd] at hdate; simp [celdaIsDate] at hdate
    | num q => rw [hd] at hdate; simp [celdaIsDate] at hdate
    | date d =>
        constructor
        · intro hp
          rcases List.mem_filter.1 hp with ⟨_, hv⟩
          have hv' : vencido today r = false := by simpa using hv
          rw [vencido_date today d r hd] at hv'
          refine ⟨d, rfl, ?_⟩
          unfold fechaLe
          rw [hv']
          rfl
        · rintro ⟨d', hd', hle⟩
          have hdd : d = d' := by simpa using hd'
          apply List.mem_filter.2
          refine ⟨hr, ?_⟩
          rw [Bool.not_eq_eq_eq_not]
          rw [vencido_date today d r hd]
          subst hdd
          unfold fechaLe at hle
          simpa using hle
  · intro r hr
    have hdate := (List.all_eq_true.1 h) r hr
    cases hd : r.fechaVencimiento with
    | null => rw [hd] at hdate; simp [celdaIsDate] at hdate
    | str s => rw [hd] at hdate; simp [celdaIsDate] at hdate
    | num q => rw [hd] at hdate; simp [celdaIsDate] at hdate
    | date d =>
        constructor
        · intro hp
          rcases List.mem_filter.1 hp with ⟨_, hv⟩
          rw [vencido_date today d r hd] at hv
          exact ⟨d, rfl, hv⟩
        · rintro ⟨d', hd', hlt⟩
          have hdd : d = d' := by simpa using hd'
          apply List.mem_filter.2
          refine ⟨hr, ?_⟩
          rw [vencido_date today d r hd, hdd]
          exact hlt
  · apply List.Pairwise.imp ?_
      (pairwise_sortBy _ (detalleLeB_total today) (detalleLeB_trans today) rows)
    intro a b hab
    unfold detalleLeB at hab
    cases hva : vencido today a <;> cases hvb : vencido today b <;>
      rw [hva, hvb] at hab <;> simp_all

/-- The two Scenario-B expenses: due 2030-01-01 and 2025-01-01. -/
def egresoB1 : EgresoRow :=
  ⟨Celda.date ⟨2024, 12, 1⟩, Celda.str ("Servicio"), Celda.str ("EPEC"),
   Celda.num 80, Celda.date ⟨2030, 1, 1⟩, Celda.str ("Facturado")⟩

/-- Second Scenario-B expense, overdue at 2025-06-01. -/
def egresoB2 : EgresoRow :=
  ⟨Celda.date ⟨2024, 12, 2⟩, Celda.str ("Mercadería"), Celda.str ("Proveedor Genérico"),
   Celda.num 120, Celda.date ⟨2025, 1, 1⟩, Celda.str ("No Facturado")⟩

/-- Witness for C8, Scenario B: as of 2025-06-01 the 2025-01-01 expense is
overdue, the 2030-01-01 one is pending, and the display order puts the
overdue row first. -/
theorem c8_witness :
    (([egresoB1, egresoB2].all fun r => celdaIsDate r.fechaVencimiento) = true)
    ∧ ((∀ r ∈ [egresoB1, egresoB2], (r ∈ dfPendientes ⟨2025, 6, 1⟩ [egresoB1, egresoB2] ↔
          ∃ d, r.fechaVencimiento = Celda.date d ∧ fechaLe ⟨2025, 6, 1⟩ d = true))
      ∧ (∀ r ∈ [egresoB1, egresoB2], (r ∈ dfVencidos ⟨2025, 6, 1⟩ [egresoB1, egresoB2] ↔
          ∃ d, r.fechaVencimiento = Celda.date d ∧ fechaLt d ⟨2025, 6, 1⟩ = true))
      ∧ (detalleOrder ⟨2025, 6, 1⟩ [egresoB1, egresoB2]).Perm [egresoB1, egresoB2]
      ∧ (detalleOrder ⟨2025, 6, 1⟩ [egresoB1, egresoB2]).Pairwise fun a b =>
          (vencido ⟨2025, 6, 1⟩ b = true → vencido ⟨2025, 6, 1⟩ a = true)
          ∧ (vencido ⟨2025, 6, 1⟩ a = vencido ⟨2025, 6, 1⟩ b →
              celdaFechaLeB a.fechaVencimiento b.fechaVencimiento = true)) :=
  ⟨by decide, c8_overdue_partition ⟨2025, 6, 1⟩ [egresoB1, egresoB2] (by decide)⟩

theorem find?_append_none {α : Type} (p : α → Bool) (l1 l2 : List α)
    (h : l1.find? p = none) : (l1 ++ l2).find? p = l2.find? p := by
  induction l1 with
  | nil => rfl
  | cons x xs ih =>
      cases hx : p x with
      | true => rw [List.find?_cons_of_pos _ hx] at h; cases h
      | false =>
          rw [List.find?_cons_of_neg _ (by simp [hx])] at h
          rw [List.cons_append, List.find?_cons_of_neg _ (by simp [hx])]
          exact ih h

/-- C9: the expense-type dropdown logic.  If the selected provider appears as
a key of the provider-to-type map (anywhere after entries with other keys),
the offered list is exactly the mapped list; if no entry has that key, the
full catalog is offered.  In particular the Scenario-C map file
`EPEC=Servicio` yields exactly `['Servicio']` for provider EPEC, whatever the
catalog. -/
theorem c9_filtered_types (m1 m2 : List (String × List String)) (vs : List String)
    (types : List String) (p : String) :
    ((m1.all fun e => !(e.1 == p)) = true →
      filteredEgresoTypes (m1 ++ (p, vs) :: m2) types p = vs)
    ∧ ((m1.all fun e => !(e.1 == p)) = true →
      filteredEgresoTypes m1 types p = types)
    ∧ (∀ t : List String,
        filteredEgresoTypes (loadProveedorTipoMap (some [("EPEC=Servicio")])) t ("EPEC")
          = [("Servicio")]) := by
  refine ⟨?_, ?_, ?_⟩
  · intro hall
    have hnone : (m1.find? fun e => e.1 == p) = none := by
      rw [List.find?_eq_none]
      intro x hx
      have := (List.all_eq_true.1 hall) x hx
      simpa using this
    unfold filteredEgresoTypes
    rw [find?_append_none _ _ _ hnone, List.find?_cons_of_pos _ (by simp)]
  · intro hall
    have hnone : (m1.find? fun e => e.1 == p) = none := by
      rw [List.find?_eq_none]
      intro x hx
      have := (List.all_eq_true.1 hall) x hx
      simpa using this
    unfold filteredEgresoTypes
    rw [hnone]
  · intro t
    rfl

/-- Witness for C9: provider EPEC mapped behind an unrelated entry, and a
provider absent from the map. -/
theorem c9_witness :
    (([(("Luz"), [("Servicio")])].all fun e => !(e.1 == ("EPEC"))) = true
    ∧ filteredEgresoTypes ([(("Luz"), [("Servicio")])] ++ ((("EPEC"), [("Servicio")])) :: [])
        DEFAULT_EGRESO_TYPES ("EPEC") = [("Servicio")]
    ∧ filteredEgresoTypes [(("Luz"), [("Servicio")])] DEFAULT_EGRESO_TYPES ("EPEC")
        = DEFAULT_EGRESO_TYPES) :=
  ⟨by decide,
   (c9_filtered_types [(("Luz"), [("Servicio")])] [] [("Servicio")]
      DEFAULT_EGRESO_TYPES ("EPEC")).1 (by decide),
   (c9_filtered_types [(("Luz"), [("Servicio")])] [] [("Servicio")]
      DEFAULT_EGRESO_TYPES ("EPEC")).2.1 (by decide)⟩

/-- A sales file holding one row whose amount is the numeric string '5'
(as a mixed-content CSV column delivers it). -/
def cfC10 : FileView VentaRow :=
  { parse := fun enc sep =>
      match enc, sep with
      | .latin1, .comma =>
          some { cols := COLUMNAS_VENTAS_FINALES,
                 rows := [⟨Celda.date ⟨2025, 1, 1⟩, Celda.str ("5"), Celda.str ("Efectivo"),
                           Celda.str ("Facturado"), Celda.str ("Fernando")⟩] }
      | _, _ => none }

/-- C10 counterexample: a previously loaded row whose amount is the string
'5' coerces successfully to the number 5, yet the row does not appear
unchanged in the appended table — the append replaces its amount cell by the
coerced number. -/
theorem c10_counterexample :
    coerceNum (Celda.str ("5")) = Celda.num 5
    ∧ (⟨Celda.date ⟨2025, 1, 1⟩, Celda.str ("5"), Celda.str ("Efectivo"),
        Celda.str ("Facturado"), Celda.str ("Fernando")⟩ : VentaRow)
      ∈ (loadVentasData (some cfC10)).rows
    ∧ (⟨Celda.date ⟨2025, 1, 1⟩, Celda.str ("5"), Celda.str ("Efectivo"),
        Celda.str ("Facturado"), Celda.str ("Fernando")⟩ : VentaRow)
      ∉ addNewSale (some cfC10) (Celda.date ⟨2025, 2, 1⟩) (Celda.num 1) ("e") ("f") ("f")
    ∧ (⟨Celda.date ⟨2025, 1, 1⟩, Celda.num 5, Celda.str ("Efectivo"),
        Celda.str ("Facturado"), Celda.str ("Fernando")⟩ : VentaRow)
      ∈ addNewSale (some cfC10) (Celda.date ⟨2025, 2, 1⟩) (Celda.num 1) ("e") ("f") ("f") := by
  decide

theorem coerceImporteVenta_of_num (r : VentaRow) (h : celdaIsNum r.importe = true) :
    coerceImporteVenta r = r := by
  cases r with
  | mk f i m fa s =>
      cases i with
      | num q => rfl
      | null => simp [celdaIsNum] at h
      | str s2 => simp [celdaIsNum] at h
      | date d => simp [celdaIsNum] at h

theorem coerceImporteEgreso_of_num (r : EgresoRow) (h : celdaIsNum r.importe = true) :
    coerceImporteEgreso r = r := by
  cases r with
  | mk fr t p i fv fa =>
      cases i with
      | num q => rfl
      | null => simp [celdaIsNum] at h
      | str s2 => simp [celdaIsNum] at h
      | date d => simp [celdaIsNum] at h

theorem celdaIsNum_not_null (c : Celda) (h : celdaIsNum c = true) :
    (!(celdaIsNull c)) = true := by
  cases c <;> simp_all [celdaIsNum, celdaIsNull]

theorem filter_isnum_sublist_sale (l : List VentaRow) :
    (l.filter fun r => celdaIsNum r.importe).Sublist
      ((l.map coerceImporteVenta).filter fun r => !(celdaIsNull r.importe)) := by
  induction l with
  | nil => simp
  | cons x xs ih =>
      rw [List.map_cons, List.filter_cons, List.filter_cons]
      by_cases hx : celdaIsNum x.importe = true
      · rw [if_pos (by simp [hx]), coerceImporteVenta_of_num x hx,
          if_pos (by simpa using celdaIsNum_not_null _ hx)]
        exact ih.cons₂ x
      · rw [if_neg (by simp [hx])]
        by_cases hkeep : (!(celdaIsNull (coerceImporteVenta x).importe)) = true
        · rw [if_pos (by simpa using hkeep)]
          exact ih.cons _
        · rw [if_neg (by simpa using hkeep)]
          exact ih

theorem filter_isnum_sublist_egreso (l : List EgresoRow) :
    (l.filter fun r => celdaIsNum r.importe).Sublist
      ((l.map coerceImporteEgreso).filter fun r => !(celdaIsNull r.importe)) := by
  induction l with
  | nil => simp
  | cons x xs ih =>
      rw [List.map_cons, List.filter_cons, List.filter_cons]
      by_cases hx : celdaIsNum x.importe = true
      · rw [if_pos (by simp [hx]), coerceImporteEgreso_of_num x hx,
          if_pos (by simpa using celdaIsNum_not_null _ hx)]
        exact ih.cons₂ x
      · rw [if_neg (by simp [hx])]
        by_cases hkeep : (!(celdaIsNull (coerceImporteEgreso x).importe)) = true
        · rw [if_pos (by simpa using hkeep)]
          exact ih.cons _
        · rw [if_neg (by simpa using hkeep)]
          exact ih

theorem addNewSale_decomp (file : Option (FileView VentaRow)) (fecha importe : Celda)
    (medio factura socio : String) :
    addNewSale file fecha importe medio factura socio
      = (((loadVentasData file).rows.map coerceImporteVenta).filter
          fun r => !(celdaIsNull r.importe))
        ++ (if celdaIsNull (coerceNum importe) = true then []
            else [coerceImporteVenta (mkVentaRow fecha importe medio factura socio)]) := by
  unfold addNewSale
  dsimp only
  rw [List.map_append, List.filter_append]
  congr 1
  rw [List.map_cons, List.map_nil, List.filter_cons]
  by_cases hc : celdaIsNull (coerceNum importe) = true
  · rw [if_neg (by simp [coerceImporteVenta, mkVentaRow, hc]), if_pos hc]
    rfl
  · rw [if_pos (by simp [coerceImporteVenta, mkVentaRow]; simpa using hc), if_neg hc]
    rfl

theorem addNewEgreso_decomp (file : Option (FileView EgresoRow)) (today : Fecha)
    (tipo proveedor : String) (importe vencimiento : Celda) (factura : String) :
    addNewEgreso file today tipo proveedor importe vencimiento factura
      = (((loadEgresosData file).rows.map coerceImporteEgreso).filter
          fun r => !(celdaIsNull r.importe))
        ++ (if celdaIsNull (coerceNum importe) = true then []
            else [coerceImporteEgreso (mkEgresoRow today tipo proveedor importe vencimiento factura)]) := by
  unfold addNewEgreso
  dsimp only
  rw [List.map_append, List.filter_append]
  congr 1
  rw [List.map_cons, List.map_nil, List.filter_cons]
  by_cases hc : celdaIsNull (coerceNum importe) = true
  · rw [if_neg (by simp [coerceImporteEgreso, mkEgresoRow, hc]), if_pos hc]
    rfl
  · rw [if_pos (by simp [coerceImporteEgreso, mkEgresoRow]; simpa using hc), if_neg hc]
    rfl

/-- C10 amended: every previously loaded row whose amount is already numeric
appears unchanged, in its original relative order, in the table the append
saves and returns (rows whose string amount merely coerces are kept in order
but with the amount replaced by the coerced number — the appended table is
the coerced-and-filtered previous table followed by the new row); and the
newly constructed row, when its amount is numeric, is the last row. -/
theorem c10_amended_frame (file : Option (FileView VentaRow)) (fecha importe : Celda)
    (medio factura socio : String) (file2 : Option (FileView EgresoRow)) (today : Fecha)
    (tipo proveedor : String) (importe2 vencimiento : Celda) (factura2 : String) :
    (((loadVentasData file).rows.filter fun r => celdaIsNum r.importe).Sublist
        (addNewSale file fecha importe medio factura socio))
    ∧ (∀ q, importe = Celda.num q →
        (addNewSale file fecha importe medio factura socio).getLast?
          = some (mkVentaRow fecha importe medio factura socio))
    ∧ (∃ tail, addNewSale file fecha importe medio factura socio
        = (((loadVentasData file).rows.map coerceImporteVenta).filter
            fun r => !(celdaIsNull r.importe)) ++ tail)
    ∧ (((loadEgresosData file2).rows.filter fun r => celdaIsNum r.importe).Sublist
        (addNewEgreso file2 today tipo proveedor importe2 vencimiento factura2))
    ∧ (∀ q, importe2 = Celda.num q →
        (addNewEgreso file2 today tipo proveedor importe2 vencimiento factura2).getLast?
          = some (mkEgresoRow today tipo proveedor importe2 vencimiento factura2)) := by
  refine ⟨?_, ?_, ?_, ?_, ?_⟩
  · rw [addNewSale_decomp]
    exact (filter_isnum_sublist_sale _).trans (List.sublist_append_left _ _)
  · rintro q rfl
    rw [addNewSale_decomp]
    rw [if_neg (by simp [coerceNum, celdaIsNull])]
    rw [coerceImporteVenta_of_num _ (by simp [mkVentaRow, celdaIsNum])]
    exact getLast?_append_singleton _ _
  · exact ⟨_, addNewSale_decomp file fecha importe medio factura socio⟩
  · rw [addNewEgreso_decomp]
    exact (filter_isnum_sublist_egreso _).trans (List.sublist_append_left _ _)
  · rintro q rfl
    rw [addNewEgreso_decomp]
    rw [if_neg (by simp [coerceNum, celdaIsNull])]
    rw [coerceImporteEgreso_of_num _ (by simp [mkEgresoRow, celdaIsNum])]
    exact getLast?_append_singleton _ _

/-- Witness for C10 at a concrete sale and expense with numeric amounts. -/
theorem c10_witness :
    (((loadVentasData none).rows.filter fun r => celdaIsNum r.importe).Sublist
        (addNewSale none (Celda.date ⟨2025, 1, 1⟩) (Celda.num 1) ("e") ("f") ("f")))
    ∧ (addNewSale none (Celda.date ⟨2025, 1, 1⟩) (Celda.num 1) ("e") ("f") ("f")).getLast?
        = some (mkVentaRow (Celda.date ⟨2025, 1, 1⟩) (Celda.num 1) ("e") ("f") ("f"))
    ∧ (addNewEgreso none ⟨2025, 1, 2⟩ ("Servicio") ("EPEC") (Celda.num 2)
        (Celda.date ⟨2025, 3, 1⟩) ("f")).getLast?
        = some (mkEgresoRow ⟨2025, 1, 2⟩ ("Servicio") ("EPEC") (Celda.num 2)
            (Celda.date ⟨2025, 3, 1⟩) ("f")) :=
  ⟨(c10_amended_frame none (Celda.date ⟨2025, 1, 1⟩) (Celda.num 1) ("e") ("f") ("f")
      none ⟨2025, 1, 2⟩ ("Servicio") ("EPEC") (Celda.num 2) (Celda.date ⟨2025, 3, 1⟩) ("f")).1,
   (c10_amended_frame none (Celda.date ⟨2025, 1, 1⟩) (Celda.num 1) ("e") ("f") ("f")
      none ⟨2025, 1, 2⟩ ("Servicio") ("EPEC") (Celda.num 2) (Celda.date ⟨2025, 3, 1⟩) ("f")).2.1
      1 rfl,
   (c10_amended_frame none (Celda.date ⟨2025, 1, 1⟩) (Celda.num 1) ("e") ("f") ("f")
      none ⟨2025, 1, 2⟩ ("Servicio") ("EPEC") (Celda.num 2) (Celda.date ⟨2025, 3, 1⟩) ("f")).2.2.2.2
      2 rfl⟩
